import Mathlib

/-!
Verification development for the trip-planner backend, a shallow embedding of
src/app.py.  Python dictionaries produced by json.loads are embedded as
association lists with unique keys; machine strings are Lean strings; the
external collaborators (the generative model, json.loads, the geocoder, the
routing API, the document store) are parameters of the embedded functions.
-/

namespace TripPlanner

/-- JSON values as produced by json.loads on the extracted candidate string.
Numbers are embedded as integers (no claim depends on fractional payloads). -/
inductive JVal : Type where
  | null : JVal
  | jbool : Bool → JVal
  | num : Int → JVal
  | str : String → JVal
  | arr : List JVal → JVal
  | obj : List (String × JVal) → JVal

/-- Python dict lookup d.get(k): first (unique) matching key, None when absent. -/
def dictGet {α : Type} : List (String × α) → String → Option α
  | [], _ => none
  | (k0, v0) :: rest, k => if k0 = k then some v0 else dictGet rest k

/-- Python dict assignment d[k] = v: replaces the value in place when the key
exists, appends at the end otherwise (insertion-order semantics). -/
def dictSet {α : Type} : List (String × α) → String → α → List (String × α)
  | [], k, v => [(k, v)]
  | (k0, v0) :: rest, k, v =>
    if k0 = k then (k0, v) :: rest else (k0, v0) :: dictSet rest k v

/-- Python membership test k in d. -/
def hasKey {α : Type} (l : List (String × α)) (k : String) : Bool :=
  l.any (fun kv => kv.1 == k)

/- ------------------------------------------------------------------
Directions proxy, src/app.py lines 209-229 (route get_kakao_directions).
------------------------------------------------------------------ -/

/-- A coordinate pair as carried in the request body. -/
structure Coord where
  lat : Int
  lng : Int

/-- The summary of one route returned by the routing API. -/
structure RouteSummary where
  distance : Nat
  duration : Nat

/-- Body of the HTTP response of the directions proxy. -/
inductive KBody : Type where
  | ok : String → String → KBody
  | err : String → KBody

/-- Nearest integer to a/b for b positive, ties to the even integer; the
rounding used both by correctly rounded binary64 division and by fixed-point
formatting of an exact value. -/
def roundHalfEvenDiv (a b : Nat) : Nat :=
  if 2 * (a % b) < b then a / b
  else if b < 2 * (a % b) then a / b + 1
  else if (a / b) % 2 = 0 then a / b else a / b + 1

/-- Floor of the base-two logarithm, by fuel; the first argument only needs
to dominate the logarithm, the caller passes the number itself. -/
def log2floor : Nat → Nat → Nat
  | 0, _ => 0
  | fuel + 1, n => if 2 ≤ n then log2floor fuel (n / 2) + 1 else 0

/-- Floor of the base-two logarithm of a positive number. -/
def natLog2 (n : Nat) : Nat := log2floor n n

/-- The one-decimal kilometre string of line 226,
f-string distance/1000 with format .1f, plus the literal suffix.
CPython first divides the integer by 1000 into the nearest binary64 double
(correctly rounded, ties to even), then formats that double with one
fractional digit, correctly rounding the exact value of the double.  Both
steps are reproduced exactly on integers: with e the exponent of d/1000
(so e10 = e + 10) the mantissa m is d/1000 scaled into [2^52, 2^53) and
rounded half-even, the double is m·2^(e10-62), and the printed tenths are
ten times the double rounded half-even (a decimal tie is impossible for a
dyadic value; the branch is kept for totality).  The OverflowError CPython
raises when the quotient reaches 2^1024 is not modelled. -/
def formatDistance (d : Nat) : String :=
  if d = 0 then "0.0 km"
  else
    let e10 := natLog2 ((d * 1024) / 1000)
    let m := if e10 ≤ 62 then roundHalfEvenDiv (d * 2 ^ (62 - e10)) 1000
      else roundHalfEvenDiv d (1000 * 2 ^ (e10 - 62))
    let tenths := if e10 ≤ 62 then roundHalfEvenDiv (10 * m) (2 ^ (62 - e10))
      else 10 * m * 2 ^ (e10 - 62)
    toString (tenths / 10) ++ "." ++ toString (tenths % 10) ++ " km"

/-- The whole-minute string of line 226, integer floor division by 60 plus the
literal suffix. -/
def formatDuration (s : Nat) : String :=
  toString (s / 60) ++ " 분"

/-- Shallow embedding of route get_kakao_directions (lines 209-229).
Result: HTTP status, body, and the number of calls issued to the routing API.
The upstream parameter stands for the whole requests.get / raise_for_status /
res.json pipeline: error covers transport and HTTP failures, ok carries the
route list (an absent routes key is the empty list, both are falsy). -/
def getKakaoDirections (key : Option String) (origin dest : Option Coord)
    (upstream : Except Unit (List RouteSummary)) : Nat × KBody × Nat :=
  match key with
  | none => (500, KBody.err "카카오 API 키가 없습니다.", 0)
  | some _ =>
    match origin, dest with
    | some _, some _ =>
      (match upstream with
       | Except.error _ => (500, KBody.err "카카오 API 오류", 1)
       | Except.ok routes =>
         match routes with
         | [] => (404, KBody.err "경로를 찾을 수 없습니다.", 1)
         | r :: _ =>
           (200, KBody.ok (formatDistance r.distance) (formatDuration r.duration), 1))
    | _, _ => (400, KBody.err "좌표가 없습니다.", 0)

/- ------------------------------------------------------------------
Response extractor, src/app.py line 151:
re.search of a fenced pattern (json code fence, whitespace, a lazy
brace-delimited group, whitespace, closing fence; DOTALL) or-else
re.search of a bare greedy brace pattern (DOTALL).  Both embeddings follow
Python regex semantics: the search scans start positions left to right; at
a fixed start the lazy group takes the shortest completion and star over
whitespace followed by a non-whitespace literal is the maximal-run skip.
------------------------------------------------------------------ -/

/-- Python regex class backslash-s over ASCII text. -/
def isSpace (c : Char) : Bool :=
  c = ' ' || c = '\t' || c = '\n' || c = '\r' || c = '\x0b' || c = '\x0c'

/-- Maximal whitespace skip: star over the whitespace class followed by a
non-whitespace literal commits to the full run. -/
def dropSpaces : List Char → List Char
  | [] => []
  | c :: cs => if isSpace c then dropSpaces cs else c :: cs

/-- Does a maximal whitespace run followed by a closing triple backtick start
here?  This is the tail test of the lazy group of the fenced pattern. -/
def fenceAfter (l : List Char) : Bool :=
  (dropSpaces l).take 3 = ['\x60', '\x60', '\x60']

/-- Lazy scan for the closing brace of the fenced group: the first closing
brace whose tail matches whitespace then a closing fence ends the group;
every earlier character, a closing brace included, is swallowed by the lazy
dot-star.  The accumulator holds the group read so far, reversed. -/
def closeScan : List Char → List Char → Option (List Char)
  | [], _ => none
  | c :: cs, acc =>
    if c = '\x7d' && fenceAfter cs then some (acc.reverse ++ ['\x7d'])
    else closeScan cs (c :: acc)

/-- Attempt the fenced pattern anchored at the head of the list: the literal
json fence, maximal whitespace, an opening brace, then the lazy group. -/
def fencedMatchAt (s : List Char) : Option (List Char) :=
  if s.take 7 = "```json".data then
    match dropSpaces (s.drop 7) with
    | c :: rest => if c = '\x7b' then closeScan rest ['\x7b'] else none
    | [] => none
  else none

/-- re.search of the fenced pattern: first start position with a match. -/
def fencedSearch : List Char → Option (List Char)
  | [] => none
  | c :: cs =>
    match fencedMatchAt (c :: cs) with
    | some t => some t
    | none => fencedSearch cs

/-- The prefix of the list up to and including its last closing brace,
none when the list holds no closing brace.  This is the greedy dot-star
followed by a closing brace. -/
def takeToLastClose : List Char → Option (List Char)
  | [] => none
  | c :: cs =>
    match takeToLastClose cs with
    | some body => some (c :: body)
    | none => if c = '\x7d' then some ['\x7d'] else none

/-- re.search of the bare greedy brace pattern: the match starts at the
first opening brace followed by some closing brace and runs greedily to the
last closing brace of the text. -/
def braceSearch : List Char → Option (List Char)
  | [] => none
  | c :: cs =>
    if c = '\x7b' then
      match takeToLastClose cs with
      | some body => some ('\x7b' :: body)
      | none => braceSearch cs
    else braceSearch cs

/-- Line 151-155: fenced search or-else bare search; the fenced match hands
back its group (braces included), the bare match its whole span.  A none
result is the retryable extraction failure of the loop. -/
def jsonExtract (s : List Char) : Option (List Char) :=
  match fencedSearch s with
  | some t => some t
  | none => braceSearch s

/- ------------------------------------------------------------------
Travel request and prompt builder, src/app.py lines 103-140.
------------------------------------------------------------------ -/

/-- The user-supplied travel request, the fields the prompt interpolates.
A missing departure time takes the literal default of line 115. -/
structure TravelRequest where
  destination : String
  duration : String
  companions : String
  pace : String
  preferredActivities : List String
  transportation : String
  lodgingType : String
  arrivalTime : String
  departureTime : Option String

/-- The enumerated activity-type list of line 136, verbatim. -/
def activityTypes : String :=
  "\x27식사\x27, \x27관광\x27, \x27카페\x27, \x27쇼핑\x27, \x27액티비티\x27, \x27숙소\x27"

/-- The f-string of lines 103-140, with the request fields interpolated at
the same places.  The join of line 111 is a comma-space intercalation. -/
def buildPrompt (d : TravelRequest) : String :=
  "\n            당신은 여행 계획 전문가입니다. 다음 요구사항에 맞춰 여행 계획을 JSON 형식으로 작성해주세요.\n\n            **요구사항:**\n            - 여행지: "
  ++ d.destination
  ++ "\n            - 기간: "
  ++ d.duration
  ++ "\n            - 동행: "
  ++ d.companions
  ++ "\n            - 여행 스타일: "
  ++ d.pace
  ++ "\n            - 선호 활동: "
  ++ String.intercalate ", " d.preferredActivities
  ++ "\n            - 주요 이동 수단: "
  ++ d.transportation
  ++ "\n            - 숙소 유형: "
  ++ d.lodgingType
  ++ "\n            - 첫날 도착 시간: "
  ++ d.arrivalTime
  ++ "\n            - 마지막 날 출발 시간: "
  ++ d.departureTime.getD "오후 (저녁까지 즐기기)"
  ++ "\n\n            **JSON 출력 형식 (반드시 이 형식을 따라야 합니다):**\n            \x7b\n              \"title\": \""
  ++ d.destination
  ++ " 맞춤 여행 코스\",\n              \"daily_plans\": [\n                \x7b\n                  \"day\": 1,\n                  \"theme\": \"도착 그리고 첫 만남\",\n                  \"activities\": [\n                    \x7b\"place\": \"추천 장소 1\", \"type\": \"식사\", \"description\": \"장소에 대한 간략한 설명\"\x7d,\n                    \x7b\"place\": \"추천 장소 2\", \"type\": \"관광\", \"description\": \"장소에 대한 간략한 설명\"\x7d,\n                    \x7b\"place\": \"추천 숙소\", \"type\": \"숙소\", \"description\": \"숙소에 대한 간략한 설명\"\x7d\n                  ]\n                \x7d\n              ]\n            \x7d\n\n            **규칙:**\n            - \x60daily_plans\x60 배열은 비워두지 마세요.\n            - 각 \x60activities\x60 배열에는 최소 3개 이상의 활동을 포함해주세요.\n            - \x60type\x60은 "
  ++ activityTypes
  ++ " 중에서 선택하세요.\n            - 각 날의 마지막 활동은 반드시 \x60type: \x27숙소\x27\x60여야 합니다. (단, 당일치기 제외)\n            - 모든 장소 이름은 \""
  ++ d.destination
  ++ "\" 내에 실제로 존재하는 정확한 명칭을 사용해주세요.\n            - 장소 이름이 중복되지 않도록 주의해주세요.\n            "

/- ------------------------------------------------------------------
Generation loop, src/app.py lines 142-188, and the background writer.
------------------------------------------------------------------ -/

/-- Corrective addendum of line 153, appended when extraction fails. -/
def extractFix : String :=
  "\n\n[오류 수정 요청] JSON 형식이 아닙니다. 반드시 JSON 형식으로만 응답해주세요."

/-- Corrective addendum of line 160, appended when the JSON parse fails. -/
def parseFix : String :=
  "\n\n[오류 수정 요청] 이전 응답은 유효한 JSON이 아니었습니다. JSON 문법 오류를 수정하여 다시 생성해주세요."

/-- Corrective addendum of line 164, appended when the structural check fails. -/
def structFix : String :=
  "\n\n[오류 수정 요청] \x27daily_plans\x27 배열이 비어있거나 누락되었습니다. 다시 생성해주세요."

/-- Structural check of line 163: the daily_plans entry must be a list and
must be non-empty.  Extraction guarantees the parsed value is an object, so
the check is stated on the field list. -/
def structureOk (plan : List (String × JVal)) : Bool :=
  match dictGet plan "daily_plans" with
  | some (JVal.arr xs) => !xs.isEmpty
  | _ => false

/-- Outcome of the bounded retry loop: the validated candidate string when
one attempt passed, the number of model invocations, and the prompt sent on
each invocation in order. -/
structure LoopOut where
  validated : Option String
  calls : Nat
  prompts : List String

/-- The two terminal states of the generation state machine. -/
inductive GenState where
  | Succeeded : GenState
  | Exhausted : GenState

/-- The terminal state reached by a loop outcome. -/
def loopState (o : LoopOut) : GenState :=
  match o.validated with
  | some _ => GenState.Succeeded
  | none => GenState.Exhausted

/-- The retry loop of lines 146-173.  The model is a stub indexed by the
invocation count; parse stands for json.loads restricted to the extracted
candidate (which always carries braces, hence parses to an object when it
parses at all).  The geographic block of lines 167-169 is a no-op in this
snapshot of the source, so no branch depends on the geocode.  Each failing
attempt appends its corrective addendum to the prompt and retries. -/
def genLoop (stub : Nat → String) (parse : String → Option (List (String × JVal))) :
    Nat → String → Nat → List String → LoopOut
  | 0, _, calls, log => ⟨none, calls, log⟩
  | n + 1, prompt, calls, log =>
    match jsonExtract (stub calls).data with
    | none => genLoop stub parse n (prompt ++ extractFix) (calls + 1) (log ++ [prompt])
    | some cs =>
      match parse (String.mk cs) with
      | none => genLoop stub parse n (prompt ++ parseFix) (calls + 1) (log ++ [prompt])
      | some plan =>
        if structureOk plan then ⟨some (String.mk cs), calls + 1, log ++ [prompt]⟩
        else genLoop stub parse n (prompt ++ structFix) (calls + 1) (log ++ [prompt])

/-- One attempt of the loop fails on this raw model output: extraction,
parse, or the structural check rejects it. -/
def attemptFails (parse : String → Option (List (String × JVal)))
    (raw : String) : Bool :=
  match jsonExtract raw.data with
  | none => true
  | some cs =>
    match parse (String.mk cs) with
    | none => true
    | some plan => !structureOk plan

/-- Geocode viewport bounding box: southwest and northeast corners. -/
structure Box where
  sw : Coord
  ne : Coord

/-- Result of get_geocode (lines 76-92): location, optional viewport,
optional country code.  Coordinates are embedded as scaled integers. -/
structure GeoResult where
  location : Coord
  viewport : Option Box
  country_code : Option String

/-- Status field of a persisted plan record. -/
inductive PStatus where
  | processing : PStatus
  | completed : PStatus
  | failed : PStatus

/-- One document of the plans collection: every write of the source carries
the request details; plan and error are present on the writes that set them. -/
structure PlanRec where
  status : PStatus
  req : TravelRequest
  plan : Option (List (String × JVal))
  error : Option String

/-- Message of the ValueError raised at line 176 on exhaustion, which the
handler of line 186-188 stringifies into the failed record. -/
def exhaustedMsg : String :=
  "AI가 여러 번 시도했으나 올바른 계획을 생성하지 못했습니다."

/-- Placeholder message for the reparse branch of line 178; unreachable when
parse is a function, since the loop already parsed the same string. -/
def reparseMsg : String := "JSON 재파싱 오류"

/-- Lines 179-181: a truthy country code mutates the parsed plan, setting the
country_code key (Python dict assignment overwrites an existing key). -/
def finalPlan (plan : List (String × JVal)) (cc : Option String) :
    List (String × JVal) :=
  match cc with
  | some c => dictSet plan "country_code" (JVal.str c)
  | none => plan

/-- Python truthiness of the geocode country code at line 179: the geocode
must exist and the code must be a non-empty string. -/
def truthyCC : Option GeoResult → Option String
  | some g =>
    (match g.country_code with
     | some c => if c = "" then none else some c
     | none => none)
  | none => none

/-- The background task of lines 94-188: write the processing record first,
run the bounded loop, then overwrite the same record with the completed plan
or with the failed status plus error message. -/
def createPlanInBackground (data : TravelRequest) (planId : String)
    (geocode : Option GeoResult) (stub : Nat → String)
    (parse : String → Option (List (String × JVal)))
    (store : List (String × PlanRec)) : List (String × PlanRec) :=
  let store1 := dictSet store planId ⟨PStatus.processing, data, none, none⟩
  let out := genLoop stub parse 2 (buildPrompt data) 0 []
  match out.validated with
  | none => dictSet store1 planId ⟨PStatus.failed, data, none, some exhaustedMsg⟩
  | some s =>
    match parse s with
    | some p =>
      dictSet store1 planId
        ⟨PStatus.completed, data, some (finalPlan p (truthyCC geocode)), none⟩
    | none => dictSet store1 planId ⟨PStatus.failed, data, none, some reparseMsg⟩

/- ------------------------------------------------------------------
Geographic validation (spec-modelled) and async record state machine.
------------------------------------------------------------------ -/

/-- One itinerary activity as seen by the geographic check. -/
structure Activity where
  place : String
  ty : String
  descr : String

/-- Containment of a point in the viewport bounding box. -/
def inViewport (b : Box) (c : Coord) : Bool :=
  decide (b.sw.lat ≤ c.lat) && decide (c.lat ≤ b.ne.lat) &&
  decide (b.sw.lng ≤ c.lng) && decide (c.lng ≤ b.ne.lng)

/-- An activity whose place fails to resolve, or resolves outside the
destination viewport, is invalid. -/
def placeInvalid (resolve : String → Option Coord) (b : Box) (a : Activity) : Bool :=
  match resolve a.place with
  | none => true
  | some c => !inViewport b c

/-- Modelled from the spec: the body of the geographic validation block at
src/app.py lines 167-169 is elided in this snapshot (a pass statement under a
comment asking to reinsert the existing logic), so the check is modelled from
the spec, section 4.3: when the destination viewport is available, resolve
every activity place (resolve is the geocoding collaborator already scoped to
the destination); record as invalid each place that fails to resolve or falls
outside the bounding box; a non-empty invalid list is the retryable
GeographicError carrying the offending place names, returned here as some
list; none means the check passed or was skipped for lack of a viewport. -/
def validateGeo (resolve : String → Option Coord) (viewport : Option Box)
    (acts : List Activity) : Option (List String) :=
  match viewport with
  | none => none
  | some b =>
    if ((acts.filter (placeInvalid resolve b)).map (fun a => a.place)).isEmpty then none
    else some ((acts.filter (placeInvalid resolve b)).map (fun a => a.place))

/-- The record written first by the background task (line 99). -/
def procRec (data : TravelRequest) : PlanRec :=
  ⟨PStatus.processing, data, none, none⟩

/-- The record written last by the background task: completed plus plan
(line 182-183) or failed plus error message (line 188). -/
def finalRecord (data : TravelRequest)
    (outcome : Except String (List (String × JVal))) : PlanRec :=
  match outcome with
  | Except.ok p => ⟨PStatus.completed, data, some p, none⟩
  | Except.error e => ⟨PStatus.failed, data, none, some e⟩

/-- Events of the async generation path (route /generate, lines 231-248,
plus the background task): the handler spawns the worker thread then returns
the identifier; the worker writes the processing record then, after the loop,
the final record.  Only the program order of each thread is fixed; the
interleaving is free. -/
inductive AsyncAct where
  | spawn : AsyncAct
  | ret : AsyncAct
  | writeProcessing : AsyncAct
  | writeFinal : AsyncAct

/-- Joint state of handler, worker and store in the async path. -/
structure AsyncState where
  spawned : Bool
  returned : Bool
  wrote : Bool
  finished : Bool
  store : List (String × PlanRec)

/-- One interleaving step; none when the event is not enabled. -/
def asyncStep (data : TravelRequest) (pid : String)
    (outcome : Except String (List (String × JVal)))
    (s : AsyncState) : AsyncAct → Option AsyncState
  | AsyncAct.spawn =>
    if s.spawned then none
    else some ⟨true, s.returned, s.wrote, s.finished, s.store⟩
  | AsyncAct.ret =>
    if s.spawned && !s.returned then
      some ⟨s.spawned, true, s.wrote, s.finished, s.store⟩
    else none
  | AsyncAct.writeProcessing =>
    if s.spawned && !s.wrote then
      some ⟨s.spawned, s.returned, true, s.finished, dictSet s.store pid (procRec data)⟩
    else none
  | AsyncAct.writeFinal =>
    if s.wrote && !s.finished then
      some ⟨s.spawned, s.returned, s.wrote, true,
            dictSet s.store pid (finalRecord data outcome)⟩
    else none

/-- Initial state: nothing spawned, nothing returned, empty store. -/
def asyncInit : AsyncState := ⟨false, false, false, false, []⟩

/-- Run a list of interleaving events from a state. -/
def asyncRun (data : TravelRequest) (pid : String)
    (outcome : Except String (List (String × JVal))) :
    AsyncState → List AsyncAct → Option AsyncState
  | s, [] => some s
  | s, a :: rest =>
    match asyncStep data pid outcome s a with
    | some s2 => asyncRun data pid outcome s2 rest
    | none => none

/- ------------------------------------------------------------------
Claim-side predicates and concrete scenario data.
------------------------------------------------------------------ -/

/-- Claim-side predicate, following the words of the spec for the structural
check, for comparison with structureOk: the day list is missing, not a list,
or empty, or some day has a missing, non-list, empty, or shorter-than-three
activity list. -/
def structFailSpec (plan : List (String × JVal)) : Bool :=
  match dictGet plan "daily_plans" with
  | some (JVal.arr xs) =>
    xs.isEmpty || xs.any (fun d =>
      match d with
      | JVal.obj fs =>
        (match dictGet fs "activities" with
         | some (JVal.arr as) => decide (as.length < 3)
         | _ => true)
      | _ => true)
  | _ => true

/-- The first string occurs verbatim inside the second. -/
def Substr (a b : String) : Prop :=
  ∃ pre post, b.data = pre ++ a.data ++ post

/-- The second prompt strictly extends the first: the first is a proper
prefix, the appended tail is non-empty. -/
def promptExt (a b : String) : Prop :=
  ∃ t, t ≠ "" ∧ b = a ++ t

/-- A concrete travel request used by the scenario theorems. -/
def d0 : TravelRequest :=
  ⟨"Seoul", "3 days", "family", "relaxed", ["food"], "car", "hotel", "morning", none⟩

/-- Raw model output of scenario attempt one: brace-delimited but invalid
JSON. -/
def badRaw : String := "\x7bbad\x7d"

/-- Raw model output of scenario attempt two: a valid, structurally sound
plan. -/
def goodRaw : String :=
  "\x7b\"daily_plans\": [\x7b\"activities\": [1, 2, 3]\x7d]\x7d"

/-- The object json.loads yields on the scenario attempt-two output. -/
def goodPlan : List (String × JVal) :=
  [("daily_plans",
    JVal.arr [JVal.obj [("activities", JVal.arr [JVal.num 1, JVal.num 2, JVal.num 3])]])]

/-- Scenario stub model: invalid JSON on the first call, the good plan on
the second. -/
def stub6 : Nat → String := fun i => if i = 0 then badRaw else goodRaw

/-- Scenario stand-in for json.loads, consistent with JSON semantics on the
two strings the scenario extracts. -/
def parse6 : String → Option (List (String × JVal)) :=
  fun s => if s = goodRaw then some goodPlan else none

/-- A parsed plan that already carries a country_code field. -/
def planX : List (String × JVal) :=
  [("daily_plans", JVal.arr [JVal.num 1]), ("country_code", JVal.str "XX")]

/-- A concrete terminal outcome for the async machine. -/
def out0 : Except String (List (String × JVal)) := Except.error exhaustedMsg

/-- A concrete viewport box for witnesses. -/
def box0 : Box := ⟨⟨0, 0⟩, ⟨10, 10⟩⟩

/-- A concrete activity for witnesses. -/
def act0 : Activity := ⟨"Nowhere", "관광", ""⟩

/-- Invariant of the async machine: the store is empty until the worker
writes, holds exactly the processing record between the two worker writes,
and exactly the final record afterwards; completion implies the processing
write happened first. -/
def asyncInv (data : TravelRequest) (pid : String)
    (outcome : Except String (List (String × JVal))) (s : AsyncState) : Prop :=
  (s.finished = true → s.wrote = true)
  ∧ (s.wrote = false → s.store = [])
  ∧ (s.wrote = true → s.finished = false → s.store = [(pid, procRec data)])
  ∧ (s.finished = true → s.store = [(pid, finalRecord data outcome)])

/- ==================================================================
Theorems.  Shared helper lemmas first, then one theorem per claim.
================================================================== -/

theorem dictGet_dictSet_self {α : Type} (l : List (String × α)) (k : String) (v : α) :
    dictGet (dictSet l k v) k = some v := by
  induction l with
  | nil => simp [dictSet, dictGet]
  | cons hd tl ih =>
    obtain ⟨k0, v0⟩ := hd
    by_cases h : k0 = k
    · simp [dictSet, dictGet, h]
    · simp [dictSet, dictGet, h, ih]

theorem dictGet_dictSet_ne {α : Type} (l : List (String × α)) (k k' : String) (v : α)
    (h : k' ≠ k) : dictGet (dictSet l k v) k' = dictGet l k' := by
  have hkk : ¬ k = k' := fun e => h e.symm
  induction l with
  | nil => simp [dictSet, dictGet, hkk]
  | cons hd tl ih =>
    obtain ⟨k0, v0⟩ := hd
    by_cases h0 : k0 = k
    · subst h0
      simp [dictSet, dictGet, hkk]
    · simp [dictSet, dictGet, h0, ih]

theorem dictSet_append_of_hasKey_false {α : Type} (l : List (String × α)) (k : String)
    (v : α) (h : hasKey l k = false) : dictSet l k v = l ++ [(k, v)] := by
  induction l with
  | nil => simp [dictSet]
  | cons hd tl ih =>
    obtain ⟨k0, v0⟩ := hd
    simp only [hasKey, List.any_cons, Bool.or_eq_false_iff] at h
    have h0 : k0 ≠ k := by
      intro e
      rw [e] at h
      simp at h
    have ht : hasKey tl k = false := h.2
    simp [dictSet, h0, ih ht]

theorem substr_head (x t : String) : Substr x (x ++ t) :=
  ⟨[], t.data, by simp [String.data_append]⟩

theorem substr_tail (x t : String) : Substr x (t ++ x) :=
  ⟨t.data, [], by simp [String.data_append]⟩

theorem substr_cons (x s t : String) : Substr x t → Substr x (s ++ t) := by
  rintro ⟨pre, post, h⟩
  exact ⟨s.data ++ pre, post, by simp [String.data_append, h]⟩

theorem substr_extendR (x s t : String) : Substr x s → Substr x (s ++ t) := by
  rintro ⟨pre, post, h⟩
  exact ⟨pre, post ++ t.data, by simp [String.data_append, h]⟩

theorem substr_mem {x b : String} {c : Char} (h : Substr x b) (hc : c ∈ x.data) :
    c ∈ b.data := by
  obtain ⟨pre, post, hd⟩ := h
  rw [hd]
  exact List.mem_append.mpr (Or.inl (List.mem_append.mpr (Or.inr hc)))

/-- C9: for every travel request, the prompt built by the prompt builder
contains the destination string verbatim and the enumerated activity-type
list verbatim. -/
theorem c9_prompt_contains (d : TravelRequest) :
    Substr d.destination (buildPrompt d) ∧ Substr activityTypes (buildPrompt d) := by
  unfold buildPrompt
  constructor
  · apply substr_extendR
    exact substr_tail _ _
  · apply substr_extendR
    apply substr_extendR
    apply substr_extendR
    exact substr_tail _ _

/-- C7: with the provider key and both coordinates present, a routing
response with at least one route is reshaped from the first route summary
into the one-decimal kilometre string and the whole-minute string; 12345
metres and 1530 seconds map to 12.3 km and 25 minutes.  The further
instances pin the binary64 behaviour of the formatter at decimal midpoints,
where the double below or above the midpoint decides the digit: 50, 150 and
350 metres land below their midpoints and 450 above, and 12350 rounds down,
each agreeing with the running program. -/
theorem c7_directions_format (k : String) (c1 c2 : Coord) (r : RouteSummary)
    (rest : List RouteSummary) :
    getKakaoDirections (some k) (some c1) (some c2) (Except.ok (r :: rest))
      = (200, KBody.ok (formatDistance r.distance) (formatDuration r.duration), 1)
    ∧ formatDistance 12345 = "12.3 km"
    ∧ formatDuration 1530 = "25 분"
    ∧ formatDistance 50 = "0.1 km"
    ∧ formatDistance 150 = "0.1 km"
    ∧ formatDistance 350 = "0.3 km"
    ∧ formatDistance 450 = "0.5 km"
    ∧ formatDistance 1050 = "1.1 km"
    ∧ formatDistance 12350 = "12.3 km" := by
  refine ⟨rfl, ?_, ?_, ?_, ?_, ?_, ?_, ?_, ?_⟩ <;> decide

/-- C8: the directions proxy answers 500 when the provider key is absent,
400 when either coordinate is missing (with the key present), 500 on
transport or HTTP failure of the upstream call, 404 when the upstream
returns no routes; and the upstream is never invoked more than once, so no
failure is retried. -/
theorem c8_directions_errors :
    (∀ o d up, getKakaoDirections none o d up
        = (500, KBody.err "카카오 API 키가 없습니다.", 0))
    ∧ (∀ k d up, getKakaoDirections (some k) none d up
        = (400, KBody.err "좌표가 없습니다.", 0))
    ∧ (∀ k o up, getKakaoDirections (some k) o none up
        = (400, KBody.err "좌표가 없습니다.", 0))
    ∧ (∀ k c1 c2, getKakaoDirections (some k) (some c1) (some c2) (Except.error ())
        = (500, KBody.err "카카오 API 오류", 1))
    ∧ (∀ k c1 c2, getKakaoDirections (some k) (some c1) (some c2) (Except.ok [])
        = (404, KBody.err "경로를 찾을 수 없습니다.", 1))
    ∧ (∀ key o d up, (getKakaoDirections key o d up).2.2 ≤ 1) := by
  refine ⟨fun o d up => rfl, fun k d up => rfl, fun k o up => ?_,
    fun k c1 c2 => rfl, fun k c1 c2 => rfl, fun key o d up => ?_⟩
  · cases o <;> rfl
  · rcases key with _ | k
    · exact Nat.zero_le 1
    · rcases o with _ | o1
      · exact Nat.zero_le 1
      · rcases d with _ | d1
        · exact Nat.zero_le 1
        · rcases up with e | routes
          · exact Nat.le_refl 1
          · rcases routes with _ | ⟨r, rs⟩
            · exact Nat.le_refl 1
            · exact Nat.le_refl 1

/-- C3 counterexample: the claimed equivalence between structural failure
and the spec condition is false on a plan whose single day has an empty
activity list; the code-level structural check passes it although the spec
condition flags it. -/
theorem c3_counterexample :
    ¬ (∀ plan, structureOk plan = false ↔ structFailSpec plan = true) := by
  intro h
  have h2 := (h [("daily_plans", JVal.arr [JVal.obj [("activities", JVal.arr [])]])]).mpr rfl
  have h3 : structureOk [("daily_plans", JVal.arr [JVal.obj [("activities", JVal.arr [])]])]
      = true := rfl
  rw [h2] at h3
  exact Bool.noConfusion h3

/-- C3 amended: the structural check of the code passes exactly when the
daily_plans entry is a non-empty list; day lists of any content pass, so a
plan with zero days fails and a plan whose days all have at least three
activities passes, but per-day activity minimums are not checked. -/
theorem c3_amended (plan : List (String × JVal)) :
    structureOk plan = true
      ↔ ∃ xs, dictGet plan "daily_plans" = some (JVal.arr xs) ∧ xs ≠ [] := by
  unfold structureOk
  cases h : dictGet plan "daily_plans" with
  | none => simp [h]
  | some v =>
    cases v <;> simp [h, List.isEmpty_iff]

/-- C3 witness: the amended equivalence evaluated at the zero-day plan and
at a plan whose single day has three activities. -/
theorem c3_witness :
    (structureOk [("daily_plans", JVal.arr [])] = true
      ↔ ∃ xs, dictGet [("daily_plans", JVal.arr [])] "daily_plans"
          = some (JVal.arr xs) ∧ xs ≠ [])
    ∧ (structureOk goodPlan = true
      ↔ ∃ xs, dictGet goodPlan "daily_plans" = some (JVal.arr xs) ∧ xs ≠ []) :=
  ⟨c3_amended [("daily_plans", JVal.arr [])], c3_amended goodPlan⟩

/-- C10 counterexample: when the parsed plan already carries a country_code
field, the stored plan is not the plan with one additional field; the
existing model-produced field is overwritten instead. -/
theorem c10_counterexample :
    finalPlan planX (some "KR") ≠ planX ++ [("country_code", JVal.str "KR")]
    ∧ dictGet (finalPlan planX (some "KR")) "country_code" = some (JVal.str "KR")
    ∧ dictGet planX "country_code" = some (JVal.str "XX") := by
  refine ⟨?_, rfl, rfl⟩
  intro h
  have h1 : (finalPlan planX (some "KR")).length = 2 := rfl
  have h2 : (planX ++ [("country_code", JVal.str "KR")]).length = 3 := rfl
  rw [h] at h1
  exact absurd (h1.symm.trans h2) (by decide)

/-- C10 amended: with no country code the stored plan equals the validated
plan; with a country code the stored plan is the validated plan with the
country_code key set to that code (appended as one additional field when the
key was absent, overwritten in place when the model already produced it),
and every other field is unchanged. -/
theorem c10_amended (plan : List (String × JVal)) (c : String) :
    finalPlan plan none = plan
    ∧ dictGet (finalPlan plan (some c)) "country_code" = some (JVal.str c)
    ∧ (∀ k, k ≠ "country_code" →
        dictGet (finalPlan plan (some c)) k = dictGet plan k)
    ∧ (hasKey plan "country_code" = false →
        finalPlan plan (some c) = plan ++ [("country_code", JVal.str c)]) := by
  refine ⟨rfl, ?_, ?_, ?_⟩
  · exact dictGet_dictSet_self plan "country_code" (JVal.str c)
  · intro k hk
    exact dictGet_dictSet_ne plan "country_code" k (JVal.str c) hk
  · intro h
    exact dictSet_append_of_hasKey_false plan "country_code" (JVal.str c) h

/-- C10 witness: the amended statement at a concrete plan without a
country_code field and the code KR. -/
theorem c10_witness :
    dictGet (finalPlan [("daily_plans", JVal.arr [JVal.num 1])] (some "KR"))
        "country_code" = some (JVal.str "KR")
    ∧ dictGet (finalPlan [("daily_plans", JVal.arr [JVal.num 1])] (some "KR"))
        "daily_plans" = dictGet [("daily_plans", JVal.arr [JVal.num 1])] "daily_plans"
    ∧ finalPlan [("daily_plans", JVal.arr [JVal.num 1])] (some "KR")
        = [("daily_plans", JVal.arr [JVal.num 1])] ++ [("country_code", JVal.str "KR")] :=
  ⟨(c10_amended [("daily_plans", JVal.arr [JVal.num 1])] "KR").2.1,
   (c10_amended [("daily_plans", JVal.arr [JVal.num 1])] "KR").2.2.1 "daily_plans" (by decide),
   (c10_amended [("daily_plans", JVal.arr [JVal.num 1])] "KR").2.2.2 (by decide)⟩

theorem placeInvalid_eq_false (resolve : String → Option Coord) (b : Box) (a : Activity) :
    placeInvalid resolve b a = false
      ↔ ∃ c, resolve a.place = some c ∧ inViewport b c = true := by
  unfold placeInvalid
  cases h : resolve a.place with
  | none => simp [h]
  | some c => simp [h]

theorem placeInvalid_eq_true (resolve : String → Option Coord) (b : Box) (a : Activity) :
    placeInvalid resolve b a = true
      ↔ (resolve a.place = none
          ∨ ∃ c, resolve a.place = some c ∧ inViewport b c = false) := by
  unfold placeInvalid
  cases h : resolve a.place with
  | none => simp [h]
  | some c => simp [h]

/-- C2 (spec-modelled): with no destination viewport the geographic check is
skipped; with a viewport it passes exactly when every activity place
resolves to coordinates inside the bounding box, and when it fails it fails
with the non-empty list of offending place names, each of which names an
activity whose place failed to resolve or resolved outside the box. -/
theorem c2_geographic (resolve : String → Option Coord) (viewport : Option Box)
    (acts : List Activity) :
    (viewport = none → validateGeo resolve viewport acts = none)
    ∧ (∀ b, viewport = some b →
        ((validateGeo resolve viewport acts = none
            ↔ ∀ a ∈ acts, ∃ c, resolve a.place = some c ∧ inViewport b c = true)
         ∧ (∀ names, validateGeo resolve viewport acts = some names →
              names ≠ [] ∧ ∀ p ∈ names, ∃ a ∈ acts, a.place = p ∧
                (resolve a.place = none
                 ∨ ∃ c, resolve a.place = some c ∧ inViewport b c = false)))) := by
  constructor
  · intro h
    rw [h]
    rfl
  · intro b hb
    subst hb
    constructor
    · have e1 : validateGeo resolve (some b) acts = none
          ↔ (acts.filter (placeInvalid resolve b)).map (fun a => a.place) = [] := by
        cases hL : (acts.filter (placeInvalid resolve b)).map (fun a => a.place) with
        | nil => simp [validateGeo, hL]
        | cons x xs => simp [validateGeo, hL]
      rw [e1, List.map_eq_nil_iff, List.filter_eq_nil_iff]
      constructor
      · intro h a ha
        have h2 := h a ha
        rw [Bool.not_eq_true] at h2
        exact (placeInvalid_eq_false resolve b a).mp h2
      · intro h a ha
        rw [Bool.not_eq_true]
        exact (placeInvalid_eq_false resolve b a).mpr (h a ha)
    · intro names hn
      simp only [validateGeo] at hn
      by_cases hL : ((acts.filter (placeInvalid resolve b)).map (fun a => a.place)).isEmpty
      · rw [if_pos hL] at hn
        exact Option.noConfusion hn
      · rw [if_neg hL] at hn
        have hnames := Option.some.inj hn
        subst hnames
        refine ⟨fun h0 => hL (by simp [h0]), ?_⟩
        intro p hp
        obtain ⟨a, haf, hap⟩ := List.mem_map.mp hp
        obtain ⟨ha, hinv⟩ := List.mem_filter.mp haf
        exact ⟨a, ha, hap, (placeInvalid_eq_true resolve b a).mp hinv⟩

/-- C2 witness: the skip case at a concrete resolver and activity list, and
the failing case at a resolver that resolves nothing. -/
theorem c2_witness :
    validateGeo (fun _ => none) none [act0] = none
    ∧ (["Nowhere"] : List String) ≠ [] :=
  ⟨(c2_geographic (fun _ => none) none [act0]).1 rfl,
   (((c2_geographic (fun _ => none) (some box0) [act0]).2 box0 rfl).2 ["Nowhere"] rfl).1⟩

theorem genLoop_fail (stub : Nat → String) (parse : String → Option (List (String × JVal)))
    (n : Nat) (p : String) (c : Nat) (log : List String)
    (h : attemptFails parse (stub c) = true) :
    ∃ p2, genLoop stub parse (n + 1) p c log
        = genLoop stub parse n p2 (c + 1) (log ++ [p]) := by
  cases hx : jsonExtract (stub c).data with
  | none => exact ⟨p ++ extractFix, by simp only [genLoop, hx]⟩
  | some cs =>
    cases hp : parse (String.mk cs) with
    | none => exact ⟨p ++ parseFix, by simp only [genLoop, hx, hp]⟩
    | some plan =>
      have hs : structureOk plan = false := by
        have h2 := h
        simp only [attemptFails, hx, hp, Bool.not_eq_true'] at h2
        exact h2
      exact ⟨p ++ structFix, by simp [genLoop, hx, hp, hs]⟩

/-- C1: when both attempts fail extraction, parsing, or validation and the
limit is 2, the loop invokes the model exactly twice, ends Exhausted, and
the background task overwrites the plan record with the failed status and
the exhaustion error message. -/
theorem c1_exhausted (data : TravelRequest) (planId : String)
    (geocode : Option GeoResult) (stub : Nat → String)
    (parse : String → Option (List (String × JVal)))
    (store : List (String × PlanRec))
    (h0 : attemptFails parse (stub 0) = true)
    (h1 : attemptFails parse (stub 1) = true) :
    (genLoop stub parse 2 (buildPrompt data) 0 []).calls = 2
    ∧ loopState (genLoop stub parse 2 (buildPrompt data) 0 []) = GenState.Exhausted
    ∧ dictGet (createPlanInBackground data planId geocode stub parse store) planId
        = some ⟨PStatus.failed, data, none, some exhaustedMsg⟩ := by
  obtain ⟨p1, e1⟩ := genLoop_fail stub parse 1 (buildPrompt data) 0 [] h0
  obtain ⟨p2, e2⟩ := genLoop_fail stub parse 0 p1 1 ([] ++ [buildPrompt data]) h1
  have eg : genLoop stub parse 2 (buildPrompt data) 0 []
      = ⟨none, 2, ([] ++ [buildPrompt data]) ++ [p1]⟩ := by
    rw [e1, e2]
    rfl
  refine ⟨?_, ?_, ?_⟩
  · rw [eg]
  · rw [eg]
    rfl
  · unfold createPlanInBackground
    rw [eg]
    exact dictGet_dictSet_self (dictSet store planId ⟨PStatus.processing, data, none, none⟩)
      planId ⟨PStatus.failed, data, none, some exhaustedMsg⟩

/-- C1 witness: a stub model that never emits braces and a parser that never
succeeds, at the concrete request d0. -/
theorem c1_witness :
    (genLoop (fun _ => "nojson") (fun _ => none) 2 (buildPrompt d0) 0 []).calls = 2
    ∧ loopState (genLoop (fun _ => "nojson") (fun _ => none) 2 (buildPrompt d0) 0 [])
        = GenState.Exhausted
    ∧ dictGet (createPlanInBackground d0 "p1" none (fun _ => "nojson") (fun _ => none) []) "p1"
        = some ⟨PStatus.failed, d0, none, some exhaustedMsg⟩ :=
  c1_exhausted d0 "p1" none (fun _ => "nojson") (fun _ => none) []
    (by decide) (by decide)

theorem genLoop_succ_extract (stub : Nat → String)
    (parse : String → Option (List (String × JVal))) (n : Nat) (p : String)
    (c : Nat) (log : List String) (hx : jsonExtract (stub c).data = none) :
    genLoop stub parse (n + 1) p c log
      = genLoop stub parse n (p ++ extractFix) (c + 1) (log ++ [p]) := by
  simp only [genLoop, hx]

theorem genLoop_succ_parse (stub : Nat → String)
    (parse : String → Option (List (String × JVal))) (n : Nat) (p : String)
    (c : Nat) (log : List String) (cs : List Char)
    (hx : jsonExtract (stub c).data = some cs)
    (hp : parse (String.mk cs) = none) :
    genLoop stub parse (n + 1) p c log
      = genLoop stub parse n (p ++ parseFix) (c + 1) (log ++ [p]) := by
  simp only [genLoop, hx, hp]

theorem genLoop_succ_ok (stub : Nat → String)
    (parse : String → Option (List (String × JVal))) (n : Nat) (p : String)
    (c : Nat) (log : List String) (cs : List Char)
    (plan : List (String × JVal))
    (hx : jsonExtract (stub c).data = some cs)
    (hp : parse (String.mk cs) = some plan)
    (hs : structureOk plan = true) :
    genLoop stub parse (n + 1) p c log
      = ⟨some (String.mk cs), c + 1, log ++ [p]⟩ := by
  simp [genLoop, hx, hp, hs]

theorem genLoop_succ_struct (stub : Nat → String)
    (parse : String → Option (List (String × JVal))) (n : Nat) (p : String)
    (c : Nat) (log : List String) (cs : List Char)
    (plan : List (String × JVal))
    (hx : jsonExtract (stub c).data = some cs)
    (hp : parse (String.mk cs) = some plan)
    (hs : structureOk plan = false) :
    genLoop stub parse (n + 1) p c log
      = genLoop stub parse n (p ++ structFix) (c + 1) (log ++ [p]) := by
  simp [genLoop, hx, hp, hs]

theorem chain_snoc (l : List String) (a b : String)
    (h : List.Chain' promptExt (l ++ [a])) (hab : promptExt a b) :
    List.Chain' promptExt ((l ++ [a]) ++ [b]) := by
  rw [List.chain'_append]
  refine ⟨h, List.chain'_singleton b, ?_⟩
  intro x hx y hy
  rw [List.getLast?_concat] at hx
  simp only [Option.mem_def, Option.some.injEq, List.head?_cons] at hx hy
  subst hx
  subst hy
  exact hab

theorem genLoop_chain (stub : Nat → String)
    (parse : String → Option (List (String × JVal))) :
    ∀ (n : Nat) (p : String) (c : Nat) (log : List String),
      List.Chain' promptExt (log ++ [p]) →
      List.Chain' promptExt ((genLoop stub parse n p c log).prompts) := by
  intro n
  induction n with
  | zero =>
    intro p c log h
    exact (List.chain'_append.mp h).1
  | succ n ih =>
    intro p c log h
    cases hx : jsonExtract (stub c).data with
    | none =>
      rw [genLoop_succ_extract stub parse n p c log hx]
      exact ih (p ++ extractFix) (c + 1) (log ++ [p])
        (chain_snoc log p (p ++ extractFix) h ⟨extractFix, by decide, rfl⟩)
    | some cs =>
      cases hp : parse (String.mk cs) with
      | none =>
        rw [genLoop_succ_parse stub parse n p c log cs hx hp]
        exact ih (p ++ parseFix) (c + 1) (log ++ [p])
          (chain_snoc log p (p ++ parseFix) h ⟨parseFix, by decide, rfl⟩)
      | some plan =>
        by_cases hs : structureOk plan = true
        · rw [genLoop_succ_ok stub parse n p c log cs plan hx hp hs]
          exact h
        · rw [Bool.not_eq_true] at hs
          rw [genLoop_succ_struct stub parse n p c log cs plan hx hp hs]
          exact ih (p ++ structFix) (c + 1) (log ++ [p])
            (chain_snoc log p (p ++ structFix) h ⟨structFix, by decide, rfl⟩)

set_option maxRecDepth 8000 in
/-- C6: in every run of the loop each prompt sent after a failure strictly
extends the previous one by a non-empty failure-specific addendum; and in
the concrete scenario of invalid JSON on attempt one then a valid plan on
attempt two with limit 2, the loop succeeds with the attempt-two plan after
two calls, and the second prompt carries a corrective addendum absent from
the first. -/
theorem c6_prompt_growth :
    (∀ (stub : Nat → String) (parse : String → Option (List (String × JVal)))
        (n c : Nat) (p : String),
        List.Chain' promptExt ((genLoop stub parse n p c []).prompts))
    ∧ loopState (genLoop stub6 parse6 2 (buildPrompt d0) 0 []) = GenState.Succeeded
    ∧ (genLoop stub6 parse6 2 (buildPrompt d0) 0 []).validated = some goodRaw
    ∧ (genLoop stub6 parse6 2 (buildPrompt d0) 0 []).calls = 2
    ∧ (genLoop stub6 parse6 2 (buildPrompt d0) 0 []).prompts
        = [buildPrompt d0, buildPrompt d0 ++ parseFix]
    ∧ Substr parseFix (buildPrompt d0 ++ parseFix)
    ∧ ¬ Substr parseFix (buildPrompt d0) := by
  refine ⟨?_, ?_, ?_, ?_, ?_, ?_, ?_⟩
  · intro stub parse n c p
    exact genLoop_chain stub parse n p c [] (by simp)
  · rfl
  · rfl
  · rfl
  · rfl
  · exact substr_tail parseFix (buildPrompt d0)
  · rintro ⟨pre, post, hd⟩
    have hmem : '류' ∈ (buildPrompt d0).data := by
      rw [hd]
      exact List.mem_append.mpr (Or.inl (List.mem_append.mpr (Or.inr (by decide))))
    exact absurd hmem (by decide)

theorem takeToLastClose_eq_none {l : List Char} :
    takeToLastClose l = none ↔ '\x7d' ∉ l := by
  induction l with
  | nil => simp [takeToLastClose]
  | cons c cs ih =>
    cases h : takeToLastClose cs with
    | some b =>
      have hcs : '\x7d' ∈ cs := by
        by_contra hc
        rw [ih.mpr hc] at h
        exact Option.noConfusion h
      simp [takeToLastClose, h, List.mem_cons, hcs]
    | none =>
      have hcs : '\x7d' ∉ cs := ih.mp h
      by_cases hc : c = '\x7d'
      · subst hc
        simp [takeToLastClose, h, List.mem_cons]
      · have hc2 : ¬ '\x7d' = c := fun e => hc e.symm
        simp [takeToLastClose, h, hc, hc2, hcs, List.mem_cons]

theorem takeToLastClose_sound {l body : List Char}
    (h : takeToLastClose l = some body) :
    ∃ mid post, body = mid ++ ['\x7d'] ∧ l = mid ++ '\x7d' :: post
      ∧ '\x7d' ∉ post := by
  induction l generalizing body with
  | nil => exact Option.noConfusion h
  | cons c cs ih =>
    cases h2 : takeToLastClose cs with
    | some b =>
      simp only [takeToLastClose, h2, Option.some.injEq] at h
      obtain ⟨mid, post, hb, hl, hp⟩ := ih h2
      refine ⟨c :: mid, post, ?_, ?_, hp⟩
      · rw [← h, hb]
        rfl
      · rw [hl]
        rfl
    | none =>
      simp only [takeToLastClose, h2] at h
      by_cases hc : c = '\x7d'
      · subst hc
        simp at h
        refine ⟨[], cs, ?_, rfl, takeToLastClose_eq_none.mp h2⟩
        rw [List.nil_append]
        exact h.symm
      · rw [if_neg hc] at h
        exact Option.noConfusion h

theorem takeToLastClose_complete {mid post : List Char} (hp : '\x7d' ∉ post) :
    takeToLastClose (mid ++ '\x7d' :: post) = some (mid ++ ['\x7d']) := by
  induction mid with
  | nil =>
    rw [List.nil_append]
    simp [takeToLastClose, takeToLastClose_eq_none.mpr hp]
  | cons c m ihm =>
    have e : takeToLastClose ((c :: m) ++ '\x7d' :: post)
        = match takeToLastClose (m ++ '\x7d' :: post) with
          | some body => some (c :: body)
          | none => if c = '\x7d' then some ['\x7d'] else none := rfl
    rw [e, ihm]
    rfl

theorem braceSearch_none_of_no_close {l : List Char} (h : '\x7d' ∉ l) :
    braceSearch l = none := by
  induction l with
  | nil => rfl
  | cons c cs ih =>
    have hcs : '\x7d' ∉ cs := fun m => h (List.mem_cons_of_mem c m)
    by_cases hc : c = '\x7b'
    · simp [braceSearch, hc, takeToLastClose_eq_none.mpr hcs, ih hcs]
    · simp [braceSearch, hc, ih hcs]

theorem braceSearch_none_of_no_open {l : List Char} (h : '\x7b' ∉ l) :
    braceSearch l = none := by
  induction l with
  | nil => rfl
  | cons c cs ih =>
    have hc : ¬ c = '\x7b' := fun e => h (e ▸ List.mem_cons_self c cs)
    have hcs : '\x7b' ∉ cs := fun m => h (List.mem_cons_of_mem c m)
    simp [braceSearch, hc, ih hcs]

theorem braceSearch_complete {pre mid post : List Char}
    (h1 : '\x7b' ∉ pre) (h2 : '\x7d' ∉ post) :
    braceSearch (pre ++ '\x7b' :: (mid ++ '\x7d' :: post))
      = some ('\x7b' :: (mid ++ ['\x7d'])) := by
  induction pre with
  | nil =>
    simp [braceSearch, takeToLastClose_complete h2]
  | cons a pre' ih =>
    rw [List.mem_cons] at h1
    push_neg at h1
    obtain ⟨h1a, h1b⟩ := h1
    have ha : ¬ a = '\x7b' := fun e => h1a e.symm
    simp [braceSearch, ha, ih h1b]

theorem braceSearch_sound {l t : List Char} (h : braceSearch l = some t) :
    ∃ pre mid post, l = pre ++ '\x7b' :: (mid ++ '\x7d' :: post)
      ∧ '\x7b' ∉ pre ∧ '\x7d' ∉ post ∧ t = '\x7b' :: (mid ++ ['\x7d']) := by
  induction l generalizing t with
  | nil => exact Option.noConfusion h
  | cons c cs ih =>
    by_cases hc : c = '\x7b'
    · subst hc
      cases h2 : takeToLastClose cs with
      | some body =>
        simp only [braceSearch, h2] at h
        simp at h
        obtain ⟨mid, post, hb, hl, hp⟩ := takeToLastClose_sound h2
        refine ⟨[], mid, post, ?_, List.not_mem_nil _, hp, ?_⟩
        · rw [hl]
          rfl
        · rw [← h, hb]
      | none =>
        simp [braceSearch, h2] at h
        rw [braceSearch_none_of_no_close (takeToLastClose_eq_none.mp h2)] at h
        exact Option.noConfusion h
    · have hb : braceSearch (c :: cs) = braceSearch cs := by
        simp [braceSearch, hc]
      rw [hb] at h
      obtain ⟨pre, mid, post, hl, hpre, hpost, ht⟩ := ih h
      refine ⟨c :: pre, mid, post, by rw [hl]; rfl, ?_, hpost, ht⟩
      intro m
      rcases List.mem_cons.mp m with e | m2
      · exact hc e.symm
      · exact hpre m2

theorem dropSpaces_mem {l : List Char} {c : Char} (h : c ∈ dropSpaces l) :
    c ∈ l := by
  induction l with
  | nil => simp [dropSpaces] at h
  | cons a as ih =>
    by_cases ha : isSpace a
    · rw [show dropSpaces (a :: as) = dropSpaces as from by simp [dropSpaces, ha]] at h
      exact List.mem_cons_of_mem a (ih h)
    · rw [show dropSpaces (a :: as) = a :: as from by simp [dropSpaces, ha]] at h
      exact h

theorem closeScan_mem {l acc t : List Char} (h : closeScan l acc = some t) :
    '\x7d' ∈ l := by
  induction l generalizing acc with
  | nil => exact Option.noConfusion h
  | cons c cs ih =>
    by_cases hc : (decide (c = '\x7d') && fenceAfter cs) = true
    · have hc2 := hc
      simp at hc2
      rw [hc2.1]
      exact List.mem_cons_self _ _
    · have h2 : closeScan cs (c :: acc) = some t := by
        rw [closeScan, if_neg hc] at h
        exact h
      exact List.mem_cons_of_mem c (ih h2)

theorem fencedMatchAt_mem {s t : List Char} (h : fencedMatchAt s = some t) :
    '\x7b' ∈ s ∧ '\x7d' ∈ s := by
  by_cases h7 : s.take 7 = "```json".data
  · cases hd : dropSpaces (s.drop 7) with
    | nil => simp [fencedMatchAt, h7, hd] at h
    | cons c rest =>
      by_cases hc : c = '\x7b'
      · subst hc
        simp only [fencedMatchAt, h7, hd, if_pos rfl, if_true] at h
        constructor
        · have hm : ('\x7b' : Char) ∈ dropSpaces (s.drop 7) := by
            rw [hd]
            exact List.mem_cons_self _ _
          exact List.mem_of_mem_drop (dropSpaces_mem hm)
        · have h9 : '\x7d' ∈ rest := closeScan_mem h
          have hm : ('\x7d' : Char) ∈ dropSpaces (s.drop 7) := by
            rw [hd]
            exact List.mem_cons_of_mem _ h9
          exact List.mem_of_mem_drop (dropSpaces_mem hm)
      · simp [fencedMatchAt, h7, hd, hc] at h
  · simp [fencedMatchAt, h7] at h

theorem fencedSearch_mem {s t : List Char} (h : fencedSearch s = some t) :
    '\x7b' ∈ s ∧ '\x7d' ∈ s := by
  induction s with
  | nil => exact Option.noConfusion h
  | cons c cs ih =>
    cases hm : fencedMatchAt (c :: cs) with
    | some t2 => exact fencedMatchAt_mem hm
    | none =>
      have h2 : fencedSearch cs = some t := by
        simp only [fencedSearch, hm] at h
        exact h
      obtain ⟨h1, h9⟩ := ih h2
      exact ⟨List.mem_cons_of_mem c h1, List.mem_cons_of_mem c h9⟩

/-- C4: the fenced pattern takes priority, its group being returned whenever
it matches; when it does not match, the extractor returns the greedy span
from the first opening brace to the last closing brace; and on text with no
opening or no closing brace extraction fails, the retryable condition. -/
theorem c4_extractor (s : List Char) :
    (∀ t, fencedSearch s = some t → jsonExtract s = some t)
    ∧ (fencedSearch s = none →
        ∀ pre mid post, s = pre ++ '\x7b' :: (mid ++ '\x7d' :: post) →
          '\x7b' ∉ pre → '\x7d' ∉ post →
          jsonExtract s = some ('\x7b' :: (mid ++ ['\x7d'])))
    ∧ (('\x7b' ∉ s ∨ '\x7d' ∉ s) → jsonExtract s = none) := by
  refine ⟨?_, ?_, ?_⟩
  · intro t h
    simp [jsonExtract, h]
  · intro hf pre mid post hs h1 h2
    subst hs
    simp [jsonExtract, hf, braceSearch_complete h1 h2]
  · intro h
    have hf : fencedSearch s = none := by
      cases hfs : fencedSearch s with
      | none => rfl
      | some t =>
        obtain ⟨m1, m2⟩ := fencedSearch_mem hfs
        rcases h with h | h
        · exact absurd m1 h
        · exact absurd m2 h
    have hb : braceSearch s = none := by
      rcases h with h | h
      · exact braceSearch_none_of_no_open h
      · exact braceSearch_none_of_no_close h
    simp [jsonExtract, hf, hb]

/-- C4 witness: a fenced input whose group is returned with priority, and a
braceless input on which extraction fails. -/
theorem c4_witness :
    jsonExtract ("```json \x7b\"a\": 1\x7d ```").data
      = some ("\x7b\"a\": 1\x7d").data
    ∧ jsonExtract ("no braces here").data = none :=
  ⟨(c4_extractor ("```json \x7b\"a\": 1\x7d ```").data).1 _ (by decide),
   (c4_extractor ("no braces here").data).2.2 (Or.inl (by decide))⟩

theorem asyncStep_inv {data : TravelRequest} {pid : String}
    {outcome : Except String (List (String × JVal))} {s s2 : AsyncState}
    {a : AsyncAct} (hI : asyncInv data pid outcome s)
    (h : asyncStep data pid outcome s a = some s2) :
    asyncInv data pid outcome s2 := by
  obtain ⟨i1, i2, i3, i4⟩ := hI
  cases a with
  | spawn =>
    by_cases hs : s.spawned = true
    · simp [asyncStep, hs] at h
    · simp [asyncStep, hs] at h
      subst h
      exact ⟨i1, i2, i3, i4⟩
  | ret =>
    by_cases hc : (s.spawned && !s.returned) = true
    · simp only [asyncStep, hc, if_pos rfl] at h
      simp at h
      subst h
      exact ⟨i1, i2, i3, i4⟩
    · simp [asyncStep, hc] at h
  | writeProcessing =>
    by_cases hc : (s.spawned && !s.wrote) = true
    · have hw : s.wrote = false := by
        have hc2 := hc
        simp at hc2
        exact hc2.2
      simp only [asyncStep, hc, if_pos rfl] at h
      simp at h
      subst h
      refine ⟨fun _ => rfl, fun e => Bool.noConfusion e, fun _ hf => ?_, fun hf => ?_⟩
      · rw [i2 hw]
        rfl
      · exact absurd (i1 hf) (by rw [hw]; exact Bool.noConfusion)
    · simp [asyncStep, hc] at h
  | writeFinal =>
    by_cases hc : (s.wrote && !s.finished) = true
    · have hc2 := hc
      simp at hc2
      obtain ⟨hw, hf⟩ := hc2
      simp only [asyncStep, hc, if_pos rfl] at h
      simp at h
      subst h
      refine ⟨fun _ => hw, fun e => ?_, fun _ e => Bool.noConfusion e, fun _ => ?_⟩
      · rw [hw] at e
        exact Bool.noConfusion e
      · rw [i3 hw hf]
        simp [dictSet]
    · simp [asyncStep, hc] at h

theorem asyncRun_inv {data : TravelRequest} {pid : String}
    {outcome : Except String (List (String × JVal))} :
    ∀ (acts : List AsyncAct) (s s2 : AsyncState),
      asyncInv data pid outcome s →
      asyncRun data pid outcome s acts = some s2 →
      asyncInv data pid outcome s2 := by
  intro acts
  induction acts with
  | nil =>
    intro s s2 hI h
    simp [asyncRun] at h
    subst h
    exact hI
  | cons a rest ih =>
    intro s s2 hI h
    cases hstep : asyncStep data pid outcome s a with
    | none => simp [asyncRun, hstep] at h
    | some s1 =>
      simp only [asyncRun, hstep] at h
      exact ih s1 s2 (asyncStep_inv hI hstep) h

/-- C5 counterexample: it is not the case that every interleaving that has
returned the identifier already holds a record; the handler may return
right after spawning, before the background task writes the processing
record, so a poll at that moment finds nothing. -/
theorem c5_counterexample :
    ¬ (∀ (acts : List AsyncAct) (s : AsyncState),
        asyncRun d0 "p1" out0 asyncInit acts = some s →
        s.returned = true →
        dictGet s.store "p1" = some (procRec d0) ∨ s.finished = true) := by
  intro h
  have h2 := h [AsyncAct.spawn, AsyncAct.ret] ⟨true, true, false, false, []⟩ rfl rfl
  rcases h2 with h2 | h2
  · exact Option.noConfusion h2
  · exact Bool.noConfusion h2

/-- C5 amended: in every interleaving of the async path the store is empty
until the background task writes the processing record as its first store
action (the identifier may be returned before that write); from then until
the final write a poll finds exactly the processing record; after the final
write a poll finds exactly the completed-or-failed record; and every write
targets the same record identifier, so the store never holds more than one
record. -/
theorem c5_amended (data : TravelRequest) (pid : String)
    (outcome : Except String (List (String × JVal)))
    (acts : List AsyncAct) (s : AsyncState)
    (h : asyncRun data pid outcome asyncInit acts = some s) :
    (s.wrote = false → s.store = [])
    ∧ (s.wrote = true → s.finished = false → s.store = [(pid, procRec data)])
    ∧ (s.finished = true → s.store = [(pid, finalRecord data outcome)])
    ∧ (∀ k v, (k, v) ∈ s.store → k = pid)
    ∧ s.store.length ≤ 1 := by
  have hinit : asyncInv data pid outcome asyncInit :=
    ⟨fun e => Bool.noConfusion e, fun _ => rfl,
     fun e => Bool.noConfusion e, fun e => Bool.noConfusion e⟩
  obtain ⟨i1, i2, i3, i4⟩ := asyncRun_inv acts asyncInit s hinit h
  refine ⟨i2, i3, i4, ?_, ?_⟩
  · intro k v hm
    cases hw : s.wrote with
    | false =>
      rw [i2 hw] at hm
      exact absurd hm (List.not_mem_nil _)
    | true =>
      cases hf : s.finished with
      | false =>
        rw [i3 hw hf] at hm
        simp at hm
        exact hm.1
      | true =>
        rw [i4 hf] at hm
        simp at hm
        exact hm.1
  · cases hw : s.wrote with
    | false =>
      rw [i2 hw]
      exact Nat.zero_le 1
    | true =>
      cases hf : s.finished with
      | false =>
        rw [i3 hw hf]
        exact Nat.le_refl 1
      | true =>
        rw [i4 hf]
        exact Nat.le_refl 1

/-- C5 witness: the amended statement along the full concrete interleaving
spawn, processing write, return, final write. -/
theorem c5_witness :
    asyncRun d0 "p1" out0 asyncInit
        [AsyncAct.spawn, AsyncAct.writeProcessing, AsyncAct.ret, AsyncAct.writeFinal]
      = some ⟨true, true, true, true, [("p1", finalRecord d0 out0)]⟩
    ∧ (⟨true, true, true, true, [("p1", finalRecord d0 out0)]⟩ : AsyncState).store
      = [("p1", finalRecord d0 out0)] :=
  ⟨rfl,
   (c5_amended d0 "p1" out0
      [AsyncAct.spawn, AsyncAct.writeProcessing, AsyncAct.ret, AsyncAct.writeFinal]
      ⟨true, true, true, true, [("p1", finalRecord d0 out0)]⟩ rfl).2.2.1 rfl⟩

end TripPlanner
